import Mathlib

/-!
A verification development for the poly-parser repository.

The repository's inspectable core is the document-parsing step: `parse_document`
takes a pipeline state holding a PDF path and returns a dictionary with an
ordered list of typed raw elements (text, table, image reference) and
document-level metadata (source path, page count).  The notebook
`notebooks/01_test_parser.ipynb` records one full run of the parser on the
9-page sample `../sample_pdfs/part0.pdf`; that captured output is embedded
verbatim below as `sampleOutput`.  The parser implementation itself
(`agents/parser.py`) is not part of the provided sources, so the operational
model `parse_document` further below is modelled from the specification and
from the shape of the captured output.
-/

/-- Bounding box of an element, four page coordinates as reported by the
extraction library.  The captured values are exact decimal printouts; they are
embedded as rationals. -/
structure BBox where
  x0 : Rat
  y0 : Rat
  x1 : Rat
  y1 : Rat
deriving DecidableEq

/-- Payload of a raw element: a string (text content or a generated image file
name) or a 2-D grid of optional cells for tables (a `none` cell is a cell the
library reported as absent, printed `None` in the notebook). -/
inductive Content where
  | str (s : String)
  | grid (g : List (List (Option String)))
deriving DecidableEq

/-- Per-element metadata dictionary.  The Python source uses one dynamic dict
per element whose key set depends on the element type; an `Option` field value
`none` means the key is absent from the dict.  For `temp_image_path` the outer
`Option` records key presence and the inner one the stored value, so
`some none` is a key that is present and maps to Python `None`. -/
structure ElemMeta where
  page_number : Nat
  bbox : Option BBox
  table_index : Option Nat
  xref : Option Nat
  temp_image_path : Option (Option String)
deriving DecidableEq

/-- One raw element dict: a `type` tag, a `content` payload and a metadata
dict, mirroring `{'type': ..., 'content': ..., 'metadata': {...}}`. -/
structure RawElement where
  type : String
  content : Content
  metadata : ElemMeta
deriving DecidableEq

/-- Document-level metadata dict: source path as supplied by the caller and
total page count. -/
structure DocMeta where
  source : String
  page_count : Nat
deriving DecidableEq

/-- The parser's return dict, with exactly the two keys `raw_elements` and
`metadata`. -/
structure ParserOutput where
  raw_elements : List RawElement
  metadata : DocMeta
deriving DecidableEq

/-- A text element as the captured output shows it: metadata holds
`page_number` and `bbox` only. -/
def mkText (p : Nat) (s : String) (bb : BBox) : RawElement :=
  ⟨"text", .str s, ⟨p, some bb, none, none, none⟩⟩

/-- A table element: metadata holds `page_number`, `bbox` and the per-page
`table_index`. -/
def mkTable (p : Nat) (g : List (List (Option String))) (bb : BBox) (ti : Nat) : RawElement :=
  ⟨"table", .grid g, ⟨p, some bb, some ti, none, none⟩⟩

/-- An image-reference element: metadata holds `page_number`, the source PDF
object-table identifier `xref`, and a `temp_image_path` key that is present and
maps to `None` in every captured element. -/
def mkImage (p : Nat) (name : String) (x : Nat) : RawElement :=
  ⟨"image_ref", .str name, ⟨p, none, none, some x, some none⟩⟩

/-- The 74 raw elements printed by the notebook for the 9-page sample PDF,
embedded verbatim from the captured run. -/
def sampleElems : List RawElement := [
 mkText 1 "7  \n  \n1.   \nGIỚI THIỆU TỔNG QUAN" ⟨85.10399627685547, 36.212650299072266, 318.42999267578125, 80.19261169433594⟩,
 mkText 1 "1.1   \nĐối tượng sử dụng" ⟨85.10399627685547, 89.7938003540039, 236.0, 105.53263854980469⟩,
 mkText 1 "-   \nDùng cho công dân Việt Nam có căn cước công dân gắn chíp thực hiện  \nđăng ký tài khoản Định danh diện tử" ⟨85.10399627685547, 115.23380279541016, 542.2900390625, 150.2926483154297⟩,
 mkText 1 "1.2   \n Mô tả tài liệu" ⟨85.10399627685547, 160.11380004882812, 207.79998779296875, 175.85264587402344⟩,
 mkText 1 "Nội dung tài liệu bao gồm các phần sau:" ⟨85.10399627685547, 185.39031982421875, 314.1400146484375, 200.93260192871094⟩,
 mkText 1 "1.   \nMục A: Giới thiệu tổng quan" ⟨85.10399627685547, 210.51376342773438, 287.2400207519531, 226.2526092529297⟩,
 mkText 1 "2.   \nMục B: Hướng dẫn các chức năng hệ thống có trên APP cho người dân sử  \ndụng." ⟨85.10399627685547, 235.83377075195312, 542.2900390625, 270.89263916015625⟩,
 mkText 1 "1.3   \n Thuật ngữ viết tắt" ⟨85.10399627685547, 280.7438049316406, 236.47999572753906, 296.482666015625⟩,
 mkText 1 "STT  \nThuật ngữ   \nÝ nghĩa" ⟨91.8239974975586, 312.620361328125, 435.82000732421875, 328.16265869140625⟩,
 mkText 1 "1  \nCCCD  \nCăn cước công dân" ⟨100.81999969482422, 349.2203369140625, 392.6199951171875, 364.76263427734375⟩,
 mkText 1 "2  \nSĐT  \nSố điện thoại" ⟨100.81999969482422, 385.8203430175781, 358.6600036621094, 401.3626403808594⟩,
 mkText 1 "3  \nNSD  \nNgười sử dụng" ⟨100.81999969482422, 422.54034423828125, 368.7400207519531, 438.0826416015625⟩,
 mkText 1 "1.4 Cấu trúc hệ thống" ⟨85.10399627685547, 465.28033447265625, 218.1199951171875, 480.8226318359375⟩,
 mkText 1 "Sau khi đăng nhập vào hệ thống, màn hình trang chủ hiển thị giao diện như hình." ⟨85.10399627685547, 490.3603515625, 541.9299926757812, 505.90264892578125⟩,
 mkTable 1 [
   [some "", some "STT", some "", some "", some "Thuật ngữ", some "", some "", some "Ý nghĩa", some ""],
   [some "1", none, none, some "CCCD", none, none, some "Căn cước công dân", none, none],
   [some "2", none, none, some "SĐT", none, none, some "Số điện thoại", none, none],
   [some "3", none, none, some "NSD", none, none, some "Người sử dụng", none, none]]
  ⟨79.70399856567383, 306.28074763371393, 544.1599833170573, 452.7499885559082⟩ 0,
 mkText 2 "8" ⟨85.10399627685547, 36.212650299072266, 318.42999267578125, 64.08000946044922⟩,
 mkText 2 "Hình 1 Giao diện trang chủ mức 0" ⟨215.3300018310547, 497.4403381347656, 412.05999755859375, 512.9826049804688⟩,
 mkText 2 "1.5 Chức năng chung" ⟨85.10399627685547, 523.120361328125, 215.239990234375, 538.6626586914062⟩,
 mkText 2 "-  Đăng nhập" ⟨85.10399627685547, 544.9603271484375, 161.3300018310547, 560.5026245117188⟩,
 mkText 2 "-  Đăng ký mức 0" ⟨85.10399627685547, 567.0403442382812, 186.76998901367188, 582.5826416015625⟩,
 mkText 2 "-  Quên mật khẩu" ⟨85.10399627685547, 589.120361328125, 185.80999755859375, 604.6626586914062⟩,
 mkText 2 "-  Đăng ký mức 1" ⟨85.10399627685547, 611.2003173828125, 186.76998901367188, 626.7426147460938⟩,
 mkText 2 "-  Kích hoạt tài khoản" ⟨85.10399627685547, 633.4003295898438, 210.3199920654297, 648.942626953125⟩,
 mkText 2 "-  Trang chủ" ⟨85.10399627685547, 655.5103759765625, 160.97000122070312, 671.0526733398438⟩,
 mkText 2 "-  Ví giấy tờ" ⟨85.10399627685547, 677.59033203125, 160.12998962402344, 693.1326293945312⟩,
 mkText 2 "-  Tab Cá nhân" ⟨85.10399627685547, 699.6703491210938, 171.76998901367188, 715.212646484375⟩,
 mkText 2 "- Đổi tài khoản" ⟨85.10399627685547, 721.7503662109375, 172.97000122070312, 737.2926635742188⟩,
 mkText 2 "- Thông báo lưu trú" ⟨85.10399627685547, 743.8263549804688, 198.0800018310547, 759.36865234375⟩,
 mkImage 2 "Image_2_0.jpeg" 51,
 mkText 3 "9  \n  \n2.   HƯỚNG DẪN SỬ DỤNG" ⟨85.10399627685547, 36.212650299072266, 318.42999267578125, 80.19261169433594⟩,
 mkText 3 "2.1   Hướng dẫn cài đặt" ⟨85.10399627685547, 89.7938003540039, 232.39999389648438, 105.53263854980469⟩,
 mkText 3 "2.1.1     Đối với hệ điều hành Android" ⟨85.10399627685547, 115.11380767822266, 305.96002197265625, 130.85264587402344⟩,
 mkText 3 "Cài đặt ứng dụng từ CH Play" ⟨85.10399627685547, 140.39031982421875, 251.59999084472656, 155.93260192871094⟩,
 mkText 3 "-    Bước 1 :  NSD truy cập ứng dụng CH Play     Tại thanh công cụ tìm kiếm     \nTìm từ khoá “ VNeID ”" ⟨85.10399627685547, 165.59800720214844, 542.2900390625, 200.57261657714844⟩,
 mkText 3 "Hình 2.1-1 Tìm kiếm ứng dụng trên CH Play" ⟨186.52999877929688, 543.7603759765625, 440.77001953125, 559.3026733398438⟩,
 mkText 3 "-   Bước 2 :  Sau khi App cần tải hiển thị     Chọn “  Cài đặt ” để tải App  “Ứng" ⟨85.10399627685547, 569.2437744140625, 542.2720336914062, 585.4599609375⟩,
 mkText 3 "dụng định danh điện tử - VNeID”  về máy." ⟨103.0999984741211, 588.6403198242188, 355.9000244140625, 604.1826171875⟩,
 mkImage 3 "Image_3_0.jpeg" 62,
 mkImage 3 "Image_3_1.png" 63,
 mkText 4 "10" ⟨85.10399627685547, 36.212650299072266, 321.66998291015625, 64.08000946044922⟩,
 mkText 4 "Hình 2.1-2 Cài đặt ứng dụng" ⟨230.69000244140625, 492.40032958984375, 400.05999755859375, 507.942626953125⟩,
 mkText 4 "-   Bước 3:   NSD chọn “ Mở ” để mở ứng dụng định danh điện tử - VNeID vừa" ⟨85.10399627685547, 517.8837890625, 542.2897338867188, 534.0999755859375⟩,
 mkText 4 "tải." ⟨103.0999984741211, 537.2803344726562, 124.1300048828125, 552.8226318359375⟩,
 mkText 4 "-    Bước 4: Sau khi tải về và cài đặt, NSD ấn chạy ứng dụng và ấn “ Bắt đầu sử  \ndụng ” để tiến hành sử dụng app:" ⟨85.10399627685547, 562.600341796875, 542.2900390625, 597.462646484375⟩,
 mkImage 4 "Image_4_0.jpeg" 77,
 mkImage 4 "Image_4_1.jpeg" 78,
 mkText 5 "11" ⟨85.10399627685547, 36.212650299072266, 321.66998291015625, 64.08000946044922⟩,
 mkText 5 "Hình 2.1-3 Màn chào khi mở ứng dụng" ⟨202.3699951171875, 731.226318359375, 428.3800048828125, 746.7686157226562⟩,
 mkImage 5 "Image_5_0.jpeg" 81,
 mkImage 5 "Image_5_1.jpeg" 82,
 mkImage 5 "Image_5_2.jpeg" 83,
 mkImage 5 "Image_5_3.jpeg" 84,
 mkText 6 "12  \n  \n2.1.2   Đối với hệ điều hành IOS" ⟨85.10399627685547, 36.212650299072266, 321.66998291015625, 80.19261169433594⟩,
 mkText 6 "Cài đặt ứng dụng từ App Store" ⟨85.10399627685547, 89.7503662109375, 264.32000732421875, 105.29264831542969⟩,
 mkText 6 "-    Bước 1: NSD mở App store trên thiết bị di động" ⟨85.10399627685547, 115.0703125, 377.8600158691406, 130.6125946044922⟩,
 mkText 6 "Hình 2.1-4 Vào kho ứng dụng" ⟨228.41000366210938, 467.3203430175781, 398.9800109863281, 503.6226501464844⟩,
 mkText 6 "-   Bước 2: Tại mục Tìm kiếm NSD gõ “ VNeID ”" ⟨85.10399627685547, 513.4003295898438, 363.70001220703125, 528.942626953125⟩,
 mkImage 6 "Image_6_0.jpeg" 87,
 mkText 7 "13" ⟨85.10399627685547, 36.212650299072266, 321.66998291015625, 64.08000946044922⟩,
 mkText 7 "Hình 2.1-5 Vào kho ứng dụng" ⟨228.41000366210938, 382.2203369140625, 398.9800109863281, 397.76263427734375⟩,
 mkText 7 "-   Bước 3: NSD nhấn “ Nhận”  để tải ứng dụng VNeID về thiết bị di động" ⟨85.10399627685547, 407.54034423828125, 501.25, 423.0826416015625⟩,
 mkText 7 "Hình 2.1-6 Tìm kiếm ứng dụng trên App Store" ⟨183.02000427246094, 762.6663208007812, 444.3699951171875, 778.2086181640625⟩,
 mkImage 7 "Image_7_0.png" 90,
 mkImage 7 "Image_7_1.jpeg" 91,
 mkText 8 "14  \n  \n-    Bước 4: Sau khi tải xong, NSD click vào ứng dụng trên màn hình chính hoặc  \nchọn  Mở  trên App Store để bắt đầu sử dụng" ⟨85.10399627685547, 36.212650299072266, 542.2897338867188, 97.37260437011719⟩,
 mkText 8 "Hình 2.1-7 Ứng dụng trên điện thoại" ⟨215.80999755859375, 439.4603271484375, 425.5, 455.00262451171875⟩,
 mkText 8 "+ NSD ấn “ Bắt đầu sử dụng ” để bắt đầu sử dụng app:" ⟨99.14399719238281, 465.40032958984375, 410.8600158691406, 480.942626953125⟩,
 mkImage 8 "Image_8_0.jpeg" 94,
 mkText 9 "15" ⟨85.10399627685547, 36.212650299072266, 321.66998291015625, 64.08000946044922⟩,
 mkText 9 "Hình 2.1-8 Màn hình chào khi mở ứng dụng" ⟨188.3300018310547, 724.0303344726562, 439.0899963378906, 739.5726318359375⟩,
 mkImage 9 "Image_9_0.jpeg" 81,
 mkImage 9 "Image_9_1.jpeg" 97,
 mkImage 9 "Image_9_2.jpeg" 83,
 mkImage 9 "Image_9_3.jpeg" 84
]

/-- The full captured parser output for the sample document. -/
def sampleOutput : ParserOutput :=
  ⟨sampleElems, ⟨"../sample_pdfs/part0.pdf", 9⟩⟩

example : sampleOutput.metadata.page_count = 9 := by decide

example : (sampleElems.filter (fun e => e.type == "table")).length = 1 := by decide

example : (sampleElems.filter (fun e => e.type == "image_ref")).length = 17 := by decide


/-! ## Operational model of the parser

`agents/parser.py` is not among the provided sources; only the notebook that
calls it and its captured output are.  The following definitions are therefore
modelled from the specification (§3, §4.1, §7) and from the shape of the
captured output above. -/

/-- Modelled from the spec: a single whitespace character in the sense of
Python's `str.strip`, which the parser is taken to use when it drops
whitespace-only text blocks. -/
def isWS (c : Char) : Bool :=
  c = ' ' ∨ c = '\t' ∨ c = '\n' ∨ c = '\r' ∨ c = '\x0b' ∨ c = '\x0c'

/-- A string is blank when every character is whitespace (so it trims to the
empty string). -/
def isBlank (s : String) : Bool :=
  s.data.all isWS

/-- Decimal digit characters of a positive number, most significant first.
The first argument is structural-recursion fuel; any fuel at least the number
itself is enough. -/
def decDigits : Nat → Nat → List Char
  | 0, _ => []
  | fuel + 1, n =>
    if n = 0 then [] else decDigits fuel (n / 10) ++ [Nat.digitChar (n % 10)]

/-- Decimal rendering of a natural number, as Python's string formatting
produces it. -/
def natToDec (n : Nat) : String :=
  if n = 0 then "0" else ⟨decDigits (n + 1) n⟩

/-- Modelled from the spec: the generated file name of an extracted image,
following the scheme visible in every captured image element
(`Image_<page>_<index>.<ext>`, e.g. `Image_2_0.jpeg`). -/
def imageName (p k : Nat) (ext : String) : String :=
  "Image_" ++ natToDec p ++ "_" ++ natToDec k ++ "." ++ ext

/-- Modelled from the spec: one content item the extraction library reports on
a page — a text block with its bounding box, a detected table grid with its
bounding box, or an embedded image with its object-table identifier and its
reported format extension (`jpeg`, `png`, ...). -/
inductive PageItem where
  | textBlock (s : String) (bb : BBox)
  | tableGrid (g : List (List (Option String))) (bb : BBox)
  | image (xref : Nat) (ext : String)

/-- Modelled from the spec: the extraction library's view of a well-formed PDF
document, a list of pages each carrying its discovered content items in the
library's discovery order. -/
structure PDFDoc where
  pages : List (List PageItem)

/-- Modelled from the spec: what a file-system path resolves to — nothing
readable, a readable file that is not a well-formed PDF, or a well-formed PDF
document. -/
inductive FileState where
  | missing
  | notPdf
  | pdf (d : PDFDoc)

/-- Modelled from the spec: the error taxonomy of §7. -/
inductive ParseError where
  | AccessError
  | CorruptDocument
  | ExtractionError
deriving DecidableEq

/-- The pipeline state object the notebook constructs with
`GraphState(pdf_path=pdf_file_path)` and passes to the parser. -/
structure GraphState where
  pdf_path : String

/-- Modelled from the spec: parse one page's items in discovery order.
`t` is the next per-page table index and `k` the next per-page image index;
whitespace-only text blocks are dropped (§8: the parser never emits
whitespace-only text nodes). -/
def parsePage (p : Nat) : List PageItem → Nat → Nat → List RawElement
  | [], _, _ => []
  | .textBlock s bb :: rest, t, k =>
    if isBlank s then parsePage p rest t k
    else mkText p s bb :: parsePage p rest t k
  | .tableGrid g bb :: rest, t, k =>
    mkTable p g bb t :: parsePage p rest (t + 1) k
  | .image x ext :: rest, t, k =>
    mkImage p (imageName p k ext) x :: parsePage p rest t (k + 1)

/-- Modelled from the spec: walk the pages in order, numbering them from `p`
upward (the document's pages are numbered from 1). -/
def parsePages (p : Nat) : List (List PageItem) → List RawElement
  | [] => []
  | pg :: rest => parsePage p pg 0 0 ++ parsePages (p + 1) rest

/-- Modelled from the spec: `parse_document(state)` — resolve the path held in
the pipeline state against the file system, fail with `AccessError` when it is
not a readable file and with `CorruptDocument` when it is not a well-formed
PDF, and otherwise return the reshaped library output together with the
document metadata (caller-supplied source path verbatim, true page count). -/
def parse_document (fs : String → FileState) (st : GraphState) :
    Except ParseError ParserOutput :=
  match fs st.pdf_path with
  | .missing => .error .AccessError
  | .notPdf => .error .CorruptDocument
  | .pdf d =>
    .ok ⟨parsePages 1 d.pages, ⟨st.pdf_path, d.pages.length⟩⟩

/-! ## Small concrete documents used as witnesses -/

/-- A bounding box used by the concrete witness documents. -/
def wBB : BBox := ⟨1, 2, 3, 4⟩

/-- A concrete two-page document: page 1 holds a text block, a table and two
images, page 2 holds one text block. -/
def wDoc : PDFDoc :=
  ⟨[[.textBlock "hello" wBB, .tableGrid [[some "a"]] wBB, .image 5 "jpeg", .image 6 "png"],
    [.textBlock "tail" wBB]]⟩

/-- A concrete file system: one well-formed PDF at `w.pdf`, a non-PDF file at
`notes.txt`, nothing anywhere else. -/
def wFS : String → FileState := fun p =>
  if p = "w.pdf" then .pdf wDoc else if p = "notes.txt" then .notPdf else .missing

/-- The pipeline state pointing at the witness document. -/
def wState : GraphState := ⟨"w.pdf"⟩

/-- The parser's output on the witness document, written out in full. -/
def wResult : ParserOutput :=
  ⟨[mkText 1 "hello" wBB, mkTable 1 [[some "a"]] wBB 0,
    mkImage 1 "Image_1_0.jpeg" 5, mkImage 1 "Image_1_1.png" 6,
    mkText 2 "tail" wBB],
   ⟨"w.pdf", 2⟩⟩

example : parse_document wFS wState = .ok wResult := by rfl
example : natToDec 0 = "0" := by rfl
example : natToDec 107 = "107" := by rfl
example : imageName 2 0 "jpeg" = "Image_2_0.jpeg" := by rfl


/-! ## Views of elements and results used by the stated properties -/

/-- The page number stored in an element's metadata. -/
def pageOf (e : RawElement) : Nat := e.metadata.page_number

/-- The table elements of an element list, in order. -/
def tablesOf (l : List RawElement) : List RawElement :=
  l.filter (fun e => e.type == "table")

/-- The image-reference elements of an element list, in order. -/
def imagesOf (l : List RawElement) : List RawElement :=
  l.filter (fun e => e.type == "image_ref")

/-- The string payload of an element: text content for text elements, the
generated file name for image references. -/
def contentStr (e : RawElement) : String :=
  match e.content with
  | .str s => s
  | .grid _ => ""

/-- The grid payload of a table element. -/
def gridOf (e : RawElement) : List (List (Option String)) :=
  match e.content with
  | .grid g => g
  | .str _ => []

/-- The generated file names of the image elements, in element order. -/
def imageNames (l : List RawElement) : List String :=
  (imagesOf l).map contentStr

/-- The elements lying on page `q`, in order. -/
def onPage (q : Nat) (l : List RawElement) : List RawElement :=
  l.filter (fun e => pageOf e == q)

/-- The `table_index` metadata values of the table elements, in order. -/
def tableIdxs (l : List RawElement) : List (Option Nat) :=
  (tablesOf l).map (fun e => e.metadata.table_index)

/-- `endsIn s suf` holds when the string `s` ends in `suf`. -/
def endsIn (s suf : String) : Bool :=
  suf.data.isSuffixOf s.data

/-- The page numbers of a result's elements, in element order. -/
def pageList (r : ParserOutput) : List Nat :=
  r.raw_elements.map pageOf

/-- The page numbers occurring in a list form a contiguous range that starts
at 1. -/
def contigFrom1 (l : List Nat) : Prop :=
  ∃ k, ∀ q, q ∈ l ↔ (1 ≤ q ∧ q ≤ k)

/-- A reported item whose table grid, if it is a table, has at least one row
and no empty row. -/
def tableOKitem : PageItem → Bool
  | .tableGrid g _ => !g.isEmpty && g.all (fun row => !row.isEmpty)
  | _ => true

/-- Every table grid the library detected in the document has at least one
row and at least one cell in each row. -/
def tablesOK (d : PDFDoc) : Prop :=
  ∀ pg ∈ d.pages, ∀ it ∈ pg, tableOKitem it = true

/-- An item the parser keeps: any table or image, and any text block that is
not whitespace-only. -/
def keptItem : PageItem → Bool
  | .textBlock s _ => !(isBlank s)
  | .tableGrid _ _ => true
  | .image _ _ => true

/-- A page yields at least one element exactly when it has a kept item. -/
def pageYields (items : List PageItem) : Bool :=
  items.any keptItem

/-! ## Structural lemmas about the modelled parser -/

/-- Every element produced for a page carries that page's number. -/
theorem parsePage_page (p : Nat) :
    ∀ (items : List PageItem) (t k : Nat) e, e ∈ parsePage p items t k → pageOf e = p := by
  intro items
  induction items with
  | nil => intro t k e he; simp [parsePage] at he
  | cons it rest ih =>
    intro t k e he
    cases it with
    | textBlock s bb =>
      simp only [parsePage] at he
      by_cases hb : isBlank s = true
      · rw [if_pos hb] at he; exact ih t k e he
      · rw [if_neg hb] at he
        rcases List.mem_cons.mp he with h | h
        · subst h; rfl
        · exact ih t k e h
    | tableGrid g bb =>
      simp only [parsePage] at he
      rcases List.mem_cons.mp he with h | h
      · subst h; rfl
      · exact ih (t + 1) k e h
    | image x ext =>
      simp only [parsePage] at he
      rcases List.mem_cons.mp he with h | h
      · subst h; rfl
      · exact ih t (k + 1) e h

/-- Every element of the whole result comes from the parse of one page whose
number is at least the starting page number. -/
theorem parsePages_mem :
    ∀ (l : List (List PageItem)) (p : Nat) e, e ∈ parsePages p l →
      ∃ q pg, pg ∈ l ∧ p ≤ q ∧ e ∈ parsePage q pg 0 0 := by
  intro l
  induction l with
  | nil => intro p e he; simp [parsePages] at he
  | cons pg rest ih =>
    intro p e he
    simp only [parsePages] at he
    rcases List.mem_append.mp he with h | h
    · exact ⟨p, pg, List.mem_cons_self _ _, Nat.le_refl p, h⟩
    · obtain ⟨q, pg2, hm, hq, hin⟩ := ih (p + 1) e h
      exact ⟨q, pg2, List.mem_cons_of_mem _ hm, by omega, hin⟩

/-- Page numbers of produced elements stay within the walked page range. -/
theorem parsePages_page_range :
    ∀ (l : List (List PageItem)) (p : Nat) e, e ∈ parsePages p l →
      p ≤ pageOf e ∧ pageOf e < p + l.length := by
  intro l
  induction l with
  | nil => intro p e he; simp [parsePages] at he
  | cons pg rest ih =>
    intro p e he
    simp only [parsePages] at he
    rcases List.mem_append.mp he with h | h
    · rw [parsePage_page p pg 0 0 e h]
      simp
    · obtain ⟨h1, h2⟩ := ih (p + 1) e h
      simp only [List.length_cons]
      omega


/-- The page numbers of the produced elements are nondecreasing in element
order. -/
theorem parsePages_sorted :
    ∀ (l : List (List PageItem)) (p : Nat),
      ((parsePages p l).map pageOf).Pairwise (· ≤ ·) := by
  intro l
  induction l with
  | nil => intro p; simp [parsePages]
  | cons pg rest ih =>
    intro p
    simp only [parsePages, List.map_append]
    refine List.pairwise_append.mpr ⟨?_, ih (p + 1), ?_⟩
    · rw [List.pairwise_map]
      refine List.pairwise_iff_forall_sublist.mpr ?_
      intro a b hab
      have ha := parsePage_page p pg 0 0 a (hab.subset (by simp))
      have hb := parsePage_page p pg 0 0 b (hab.subset (by simp))
      omega
    · intro x hx y hy
      obtain ⟨a, ha, rfl⟩ := List.mem_map.mp hx
      obtain ⟨b, hb, rfl⟩ := List.mem_map.mp hy
      have h1 := parsePage_page p pg 0 0 a ha
      have h2 := (parsePages_page_range rest (p + 1) b hb).1
      omega

/-- A page with a kept item produces at least one element. -/
theorem parsePage_ne_nil (p : Nat) :
    ∀ (items : List PageItem) (t k : Nat), pageYields items = true →
      parsePage p items t k ≠ [] := by
  intro items
  induction items with
  | nil => intro t k hy; simp [pageYields] at hy
  | cons it rest ih =>
    intro t k hy
    cases it with
    | textBlock s bb =>
      simp only [parsePage]
      by_cases hb : isBlank s = true
      · rw [if_pos hb]
        apply ih
        simp only [pageYields, List.any_cons, keptItem, hb] at hy ⊢
        simpa using hy
      · rw [if_neg hb]; simp
    | tableGrid g bb => simp [parsePage]
    | image x ext => simp [parsePage]

/-- Every text element of a page parse wraps a non-blank text block of that
page. -/
theorem parsePage_text (p : Nat) :
    ∀ (items : List PageItem) (t k : Nat) e, e ∈ parsePage p items t k →
      e.type = "text" → ∃ s bb, isBlank s = false ∧ e = mkText p s bb := by
  intro items
  induction items with
  | nil => intro t k e he _; simp [parsePage] at he
  | cons it rest ih =>
    intro t k e he hty
    cases it with
    | textBlock s bb =>
      simp only [parsePage] at he
      by_cases hb : isBlank s = true
      · rw [if_pos hb] at he; exact ih t k e he hty
      · rw [if_neg hb] at he
        rcases List.mem_cons.mp he with h | h
        · exact ⟨s, bb, Bool.eq_false_iff.mpr hb, h⟩
        · exact ih t k e h hty
    | tableGrid g bb =>
      simp only [parsePage] at he
      rcases List.mem_cons.mp he with h | h
      · subst h; simp [mkTable] at hty
      · exact ih (t + 1) k e h hty
    | image x ext =>
      simp only [parsePage] at he
      rcases List.mem_cons.mp he with h | h
      · subst h; simp [mkImage] at hty
      · exact ih t (k + 1) e h hty

/-- Every table element of a page parse carries a grid the library reported on
that page. -/
theorem parsePage_table (p : Nat) :
    ∀ (items : List PageItem) (t k : Nat) e, e ∈ parsePage p items t k →
      e.type = "table" → ∃ g bb, PageItem.tableGrid g bb ∈ items ∧ e.content = .grid g := by
  intro items
  induction items with
  | nil => intro t k e he _; simp [parsePage] at he
  | cons it rest ih =>
    intro t k e he hty
    cases it with
    | textBlock s bb =>
      simp only [parsePage] at he
      by_cases hb : isBlank s = true
      · rw [if_pos hb] at he
        obtain ⟨g, bb2, hm, hc⟩ := ih t k e he hty
        exact ⟨g, bb2, List.mem_cons_of_mem _ hm, hc⟩
      · rw [if_neg hb] at he
        rcases List.mem_cons.mp he with h | h
        · subst h; simp [mkText] at hty
        · obtain ⟨g, bb2, hm, hc⟩ := ih t k e h hty
          exact ⟨g, bb2, List.mem_cons_of_mem _ hm, hc⟩
    | tableGrid g bb =>
      simp only [parsePage] at he
      rcases List.mem_cons.mp he with h | h
      · subst h; exact ⟨g, bb, List.mem_cons_self _ _, rfl⟩
      · obtain ⟨g2, bb2, hm, hc⟩ := ih (t + 1) k e h hty
        exact ⟨g2, bb2, List.mem_cons_of_mem _ hm, hc⟩
    | image x ext =>
      simp only [parsePage] at he
      rcases List.mem_cons.mp he with h | h
      · subst h; simp [mkImage] at hty
      · obtain ⟨g2, bb2, hm, hc⟩ := ih t (k + 1) e h hty
        exact ⟨g2, bb2, List.mem_cons_of_mem _ hm, hc⟩

/-- Every image element of a page parse has a `temp_image_path` key that is
present and maps to `None`. -/
theorem parsePage_image_meta (p : Nat) :
    ∀ (items : List PageItem) (t k : Nat) e, e ∈ parsePage p items t k →
      e.type = "image_ref" → e.metadata.temp_image_path = some none := by
  intro items
  induction items with
  | nil => intro t k e he _; simp [parsePage] at he
  | cons it rest ih =>
    intro t k e he hty
    cases it with
    | textBlock s bb =>
      simp only [parsePage] at he
      by_cases hb : isBlank s = true
      · rw [if_pos hb] at he; exact ih t k e he hty
      · rw [if_neg hb] at he
        rcases List.mem_cons.mp he with h | h
        · subst h; simp [mkText] at hty
        · exact ih t k e h hty
    | tableGrid g bb =>
      simp only [parsePage] at he
      rcases List.mem_cons.mp he with h | h
      · subst h; simp [mkTable] at hty
      · exact ih (t + 1) k e h hty
    | image x ext =>
      simp only [parsePage] at he
      rcases List.mem_cons.mp he with h | h
      · subst h; rfl
      · exact ih t (k + 1) e h hty


/-- The table indices of one page's parse are consecutive starting at the
running index `t`. -/
theorem parsePage_tableIdxs (p : Nat) :
    ∀ (items : List PageItem) (t k : Nat),
      ∃ n, tableIdxs (parsePage p items t k) = (List.range' t n).map some := by
  intro items
  induction items with
  | nil => intro t k; exact ⟨0, by simp [parsePage, tableIdxs, tablesOf]⟩
  | cons it rest ih =>
    intro t k
    cases it with
    | textBlock s bb =>
      simp only [parsePage]
      by_cases hb : isBlank s = true
      · rw [if_pos hb]; exact ih t k
      · rw [if_neg hb]
        obtain ⟨n, hn⟩ := ih t k
        exact ⟨n, by simp [tableIdxs, tablesOf, mkText] at hn ⊢; exact hn⟩
    | tableGrid g bb =>
      obtain ⟨n, hn⟩ := ih (t + 1) k
      refine ⟨n + 1, ?_⟩
      simp only [parsePage]
      rw [List.range'_succ, List.map_cons]
      simp [tableIdxs, tablesOf, mkTable] at hn ⊢
      exact hn
    | image x ext =>
      obtain ⟨n, hn⟩ := ih t (k + 1)
      exact ⟨n, by simp [parsePage, tableIdxs, tablesOf, mkImage] at hn ⊢; exact hn⟩

/-- Filtering one page's parse by its own page number keeps everything. -/
theorem onPage_parsePage (p : Nat) (items : List PageItem) (t k : Nat) :
    onPage p (parsePage p items t k) = parsePage p items t k := by
  refine List.filter_eq_self.mpr ?_
  intro e he
  rw [parsePage_page p items t k e he]
  simp

/-- Filtering one page's parse by a different page number keeps nothing. -/
theorem onPage_parsePage_ne (p q : Nat) (hne : q ≠ p) (items : List PageItem) (t k : Nat) :
    onPage q (parsePage p items t k) = [] := by
  refine List.filter_eq_nil_iff.mpr ?_
  intro e he
  rw [parsePage_page p items t k e he]
  simp
  omega

/-- Elements of pages numbered from `p` never lie on an earlier page. -/
theorem onPage_parsePages_high :
    ∀ (l : List (List PageItem)) (p q : Nat), q < p → onPage q (parsePages p l) = [] := by
  intro l p q hq
  refine List.filter_eq_nil_iff.mpr ?_
  intro e he
  have := (parsePages_page_range l p e he).1
  simp
  omega

/-- On every page of the full result, the table indices are consecutive
starting at 0. -/
theorem parsePages_tableIdxs :
    ∀ (l : List (List PageItem)) (p q : Nat),
      ∃ n, tableIdxs (onPage q (parsePages p l)) = (List.range' 0 n).map some := by
  intro l
  induction l with
  | nil => intro p q; exact ⟨0, by simp [parsePages, onPage, tableIdxs, tablesOf]⟩
  | cons pg rest ih =>
    intro p q
    have happ : onPage q (parsePages p (pg :: rest)) =
        onPage q (parsePage p pg 0 0) ++ onPage q (parsePages (p + 1) rest) := by
      simp [parsePages, onPage, List.filter_append]
    by_cases hq : q = p
    · subst hq
      rw [happ, onPage_parsePage, onPage_parsePages_high rest (q + 1) q (by omega)]
      obtain ⟨n, hn⟩ := parsePage_tableIdxs q pg 0 0
      exact ⟨n, by simpa using hn⟩
    · rw [happ, onPage_parsePage_ne p q hq]
      simpa using ih (p + 1) q

/-- Every page number in the walked range is hit when every page yields an
element. -/
theorem parsePages_mem_page :
    ∀ (l : List (List PageItem)) (p q : Nat), p ≤ q → q < p + l.length →
      (∀ pg ∈ l, pageYields pg = true) →
      q ∈ (parsePages p l).map pageOf := by
  intro l
  induction l with
  | nil => intro p q h1 h2 _; simp at h2; omega
  | cons pg rest ih =>
    intro p q h1 h2 hy
    simp only [parsePages, List.map_append, List.mem_append]
    by_cases hq : q = p
    · subst hq
      left
      have hne := parsePage_ne_nil q pg 0 0 (hy pg (List.mem_cons_self _ _))
      obtain ⟨e, he⟩ := List.exists_mem_of_ne_nil _ hne
      exact List.mem_map.mpr ⟨e, he, parsePage_page q pg 0 0 e he⟩
    · right
      refine ih (p + 1) q (by omega) ?_ ?_
      · simp only [List.length_cons] at h2; omega
      · intro pg2 hm; exact hy pg2 (List.mem_cons_of_mem _ hm)

/-- Inversion of a successful `parse_document` call: the path resolved to a
well-formed PDF and the result is its reshaped page walk. -/
theorem parse_ok_elim {fs : String → FileState} {st : GraphState} {r : ParserOutput}
    (hok : parse_document fs st = .ok r) :
    ∃ d, fs st.pdf_path = .pdf d ∧
      r = ⟨parsePages 1 d.pages, ⟨st.pdf_path, d.pages.length⟩⟩ := by
  unfold parse_document at hok
  cases h : fs st.pdf_path with
  | missing => rw [h] at hok; cases hok
  | notPdf => rw [h] at hok; cases hok
  | pdf d =>
    rw [h] at hok
    injection hok with h2
    exact ⟨d, rfl, h2.symm⟩


/-! ## Injectivity of the decimal rendering used in generated image names -/

/-- Decimal digits render to digit characters. -/
theorem digitChar_isDigit : ∀ d : Fin 10, (Nat.digitChar d.val).isDigit = true := by decide

/-- Rendering of decimal digits to characters is injective. -/
theorem digitChar_inj : ∀ a b : Fin 10, Nat.digitChar a.val = Nat.digitChar b.val → a = b := by
  decide

/-- With enough fuel, `decDigits` produces exactly the base-10 digit string of
its argument, most significant digit first. -/
theorem decDigits_eq :
    ∀ (fuel n : Nat), n ≤ fuel →
      decDigits fuel n = ((Nat.digits 10 n).map Nat.digitChar).reverse := by
  intro fuel
  induction fuel with
  | zero =>
    intro n hn
    interval_cases n
    simp [decDigits]
  | succ f ih =>
    intro n hn
    by_cases h0 : n = 0
    · subst h0; simp [decDigits]
    · have hdiv : n / 10 < n := Nat.div_lt_self (Nat.pos_of_ne_zero h0) (by norm_num)
      rw [decDigits, if_neg h0, ih (n / 10) (by omega),
        Nat.digits_def' (by norm_num : 1 < 10) (Nat.pos_of_ne_zero h0)]
      simp

/-- Every character of a rendered natural number is a digit. -/
theorem natToDec_digit : ∀ (n : Nat) c, c ∈ (natToDec n).data → c.isDigit = true := by
  intro n c hc
  by_cases h0 : n = 0
  · subst h0
    have : c = ('0' : Char) := by simpa [natToDec] using hc
    subst this
    rfl
  · rw [natToDec, if_neg h0] at hc
    change c ∈ decDigits (n + 1) n at hc
    rw [decDigits_eq (n + 1) n (by omega)] at hc
    rw [List.mem_reverse] at hc
    obtain ⟨d, hd, rfl⟩ := List.mem_map.mp hc
    exact digitChar_isDigit ⟨d, Nat.digits_lt_base (by norm_num) hd⟩

/-- Rendering a list of decimal digits to characters is injective. -/
theorem map_digitChar_inj :
    ∀ (l1 l2 : List Nat), (∀ d ∈ l1, d < 10) → (∀ d ∈ l2, d < 10) →
      l1.map Nat.digitChar = l2.map Nat.digitChar → l1 = l2 := by
  intro l1
  induction l1 with
  | nil =>
    intro l2 _ _ h
    cases l2 with
    | nil => rfl
    | cons b l => simp at h
  | cons a l ih =>
    intro l2 h1 h2 h
    cases l2 with
    | nil => simp at h
    | cons b l2 =>
      simp only [List.map_cons, List.cons.injEq] at h
      have hab : a = b := by
        have := digitChar_inj ⟨a, h1 a (List.mem_cons_self _ _)⟩
          ⟨b, h2 b (List.mem_cons_self _ _)⟩ h.1
        exact congrArg Fin.val this
      subst hab
      rw [ih l2 (fun d hd => h1 d (List.mem_cons_of_mem _ hd))
        (fun d hd => h2 d (List.mem_cons_of_mem _ hd)) h.2]

/-- The decimal rendering of natural numbers is injective (stated on the
underlying character lists). -/
theorem natToDec_inj : ∀ m n : Nat, (natToDec m).data = (natToDec n).data → m = n := by
  have key : ∀ n : Nat, n ≠ 0 → (natToDec n).data = ((Nat.digits 10 n).map Nat.digitChar).reverse := by
    intro n h0
    rw [natToDec, if_neg h0]
    change decDigits (n + 1) n = _
    exact decDigits_eq (n + 1) n (by omega)
  have zero_of : ∀ n : Nat, ((Nat.digits 10 n).map Nat.digitChar).reverse = [('0' : Char)] → n = 0 := by
    intro n h
    have hrev : (Nat.digits 10 n).map Nat.digitChar = [('0' : Char)] := by
      have := congrArg List.reverse h
      simpa using this
    cases hdig : Nat.digits 10 n with
    | nil => simp [hdig] at hrev
    | cons d ds =>
      rw [hdig] at hrev
      simp only [List.map_cons, List.cons.injEq] at hrev
      obtain ⟨hd0, hds⟩ := hrev
      have hd10 : d < 10 := Nat.digits_lt_base (by norm_num) (hdig ▸ List.mem_cons_self d ds)
      have : (⟨d, hd10⟩ : Fin 10) = ⟨0, by norm_num⟩ := by
        apply digitChar_inj
        rw [hd0]
        rfl
      have hd : d = 0 := congrArg Fin.val this
      have hds2 : ds = [] := by simpa using congrArg List.length hds
      have := Nat.ofDigits_digits 10 n
      rw [hdig, hd, hds2] at this
      simpa [Nat.ofDigits] using this.symm
  intro m n h
  by_cases hm : m = 0 <;> by_cases hn : n = 0
  · omega
  · subst hm
    exfalso
    rw [key n hn] at h
    have : n = 0 := zero_of n (by simpa [natToDec] using h.symm)
    omega
  · subst hn
    exfalso
    rw [key m hm] at h
    have : m = 0 := zero_of m (by simpa [natToDec] using h)
    omega
  · rw [key m hm, key n hn] at h
    have hmap : (Nat.digits 10 m).map Nat.digitChar = (Nat.digits 10 n).map Nat.digitChar :=
      List.reverse_injective h
    have hdig : Nat.digits 10 m = Nat.digits 10 n :=
      map_digitChar_inj _ _ (fun d hd => Nat.digits_lt_base (by norm_num) hd)
        (fun d hd => Nat.digits_lt_base (by norm_num) hd) hmap
    have := congrArg (Nat.ofDigits 10) hdig
    simpa [Nat.ofDigits_digits] using this


/-- String append acts as list append on the underlying character data. -/
theorem strData_append : ∀ s t : String, (s ++ t).data = s.data ++ t.data := by
  intro s t
  cases s
  cases t
  rfl

/-- A maximal run of digit characters followed by a non-digit determines a
unique split of a character list. -/
theorem digitRun_split :
    ∀ (a b s t : List Char),
      (∀ c ∈ a, c.isDigit = true) → (∀ c ∈ b, c.isDigit = true) →
      (∀ c, s.head? = some c → c.isDigit = false) →
      (∀ c, t.head? = some c → c.isDigit = false) →
      a ++ s = b ++ t → a = b ∧ s = t := by
  intro a
  induction a with
  | nil =>
    intro b s t _ hb hs _ h
    cases b with
    | nil => exact ⟨rfl, h⟩
    | cons c b2 =>
      exfalso
      rw [List.nil_append] at h
      have hcd : c.isDigit = true := hb c (List.mem_cons_self _ _)
      have hhead : s.head? = some c := by rw [h]; rfl
      rw [hs c hhead] at hcd
      cases hcd
  | cons x a2 ih =>
    intro b s t ha hb hs ht h
    cases b with
    | nil =>
      exfalso
      rw [List.nil_append] at h
      have hxd : x.isDigit = true := ha x (List.mem_cons_self _ _)
      have hhead : t.head? = some x := by rw [← h]; rfl
      rw [ht x hhead] at hxd
      cases hxd
    | cons y b2 =>
      simp only [List.cons_append, List.cons.injEq] at h
      obtain ⟨hxy, h2⟩ := h
      obtain ⟨h3, h4⟩ := ih b2 s t (fun c hc => ha c (List.mem_cons_of_mem _ hc))
        (fun c hc => hb c (List.mem_cons_of_mem _ hc)) hs ht h2
      subst hxy
      rw [h3]
      exact ⟨rfl, h4⟩

/-- The generated image file name determines the page number and the per-page
image index. -/
theorem imageName_inj :
    ∀ p k e q j f, imageName p k e = imageName q j f → p = q ∧ k = j := by
  intro p k e q j f h
  have hd := congrArg String.data h
  simp only [imageName, strData_append, List.append_assoc] at hd
  have hd2 := List.append_cancel_left hd
  simp only [List.singleton_append, List.cons_append] at hd2
  have hsplit1 := digitRun_split (natToDec p).data (natToDec q).data _ _
    (natToDec_digit p) (natToDec_digit q)
    (fun c hc => by
      simp only [List.head?] at hc
      injection hc with hc2
      rw [← hc2]
      rfl)
    (fun c hc => by
      simp only [List.head?] at hc
      injection hc with hc2
      rw [← hc2]
      rfl)
    hd2
  obtain ⟨hpq, hrest⟩ := hsplit1
  have hp : p = q := natToDec_inj p q hpq
  have hrest2 : (natToDec k).data ++ '.' :: e.data = (natToDec j).data ++ '.' :: f.data := by
    injection hrest
  have hsplit2 := digitRun_split (natToDec k).data (natToDec j).data _ _
    (natToDec_digit k) (natToDec_digit j)
    (fun c hc => by
      simp only [List.head?] at hc
      injection hc with hc2
      rw [← hc2]
      rfl)
    (fun c hc => by
      simp only [List.head?] at hc
      injection hc with hc2
      rw [← hc2]
      rfl)
    hrest2
  exact ⟨hp, natToDec_inj k j hsplit2.1⟩


/-- The reported format extensions of the embedded images of a page, in
discovery order. -/
def imgExts : List PageItem → List String
  | [] => []
  | .image _ ext :: rest => ext :: imgExts rest
  | .textBlock _ _ :: rest => imgExts rest
  | .tableGrid _ _ :: rest => imgExts rest

/-- The generated names for a page's images, indexed consecutively from `k`. -/
def imgNamesFrom (p : Nat) : Nat → List String → List String
  | _, [] => []
  | k, ext :: rest => imageName p k ext :: imgNamesFrom p (k + 1) rest

/-- The image names of one page's parse are exactly the generated names of its
images in discovery order. -/
theorem parsePage_imageNames (p : Nat) :
    ∀ (items : List PageItem) (t k : Nat),
      imageNames (parsePage p items t k) = imgNamesFrom p k (imgExts items) := by
  intro items
  induction items with
  | nil => intro t k; simp [parsePage, imageNames, imagesOf, imgExts, imgNamesFrom]
  | cons it rest ih =>
    intro t k
    cases it with
    | textBlock s bb =>
      simp only [parsePage, imgExts]
      by_cases hb : isBlank s = true
      · rw [if_pos hb]; exact ih t k
      · rw [if_neg hb]
        simp only [imageNames, imagesOf, List.filter_cons, mkText]
        rw [← ih t k]
        simp [imageNames, imagesOf]
    | tableGrid g bb =>
      simp only [parsePage, imgExts]
      rw [← ih (t + 1) k]
      simp [imageNames, imagesOf, mkTable]
    | image x ext =>
      simp only [parsePage, imgExts, imgNamesFrom]
      rw [← ih t (k + 1)]
      simp [imageNames, imagesOf, mkImage, contentStr]

/-- Every generated name in a page's name list has an index at least the
starting index. -/
theorem imgNamesFrom_mem (p : Nat) :
    ∀ (es : List String) (k : Nat) s, s ∈ imgNamesFrom p k es →
      ∃ j ext, k ≤ j ∧ s = imageName p j ext := by
  intro es
  induction es with
  | nil => intro k s hs; simp [imgNamesFrom] at hs
  | cons ext rest ih =>
    intro k s hs
    rcases List.mem_cons.mp hs with h | h
    · exact ⟨k, ext, Nat.le_refl k, h⟩
    · obtain ⟨j, ext2, hj, hsj⟩ := ih (k + 1) s h
      exact ⟨j, ext2, by omega, hsj⟩

/-- The generated names of one page are pairwise distinct. -/
theorem imgNamesFrom_pairwise (p : Nat) :
    ∀ (es : List String) (k : Nat), (imgNamesFrom p k es).Pairwise (· ≠ ·) := by
  intro es
  induction es with
  | nil => intro k; simp [imgNamesFrom]
  | cons ext rest ih =>
    intro k
    refine List.pairwise_cons.mpr ⟨?_, ih (k + 1)⟩
    intro s hs heq
    obtain ⟨j, ext2, hj, hsj⟩ := imgNamesFrom_mem p rest (k + 1) s hs
    rw [hsj] at heq
    have := (imageName_inj p k ext p j ext2 heq).2
    omega

/-- Every image name of the whole result is a generated name of a page in the
walked range. -/
theorem parsePages_imageNames_mem :
    ∀ (l : List (List PageItem)) (p : Nat) s, s ∈ imageNames (parsePages p l) →
      ∃ q j ext, p ≤ q ∧ s = imageName q j ext := by
  intro l
  induction l with
  | nil => intro p s hs; simp [parsePages, imageNames, imagesOf] at hs
  | cons pg rest ih =>
    intro p s hs
    simp only [parsePages, imageNames, imagesOf, List.filter_append, List.map_append,
      List.mem_append] at hs
    rcases hs with h | h
    · have h2 : s ∈ imageNames (parsePage p pg 0 0) := by
        simpa [imageNames, imagesOf] using h
      rw [parsePage_imageNames p pg 0 0] at h2
      obtain ⟨j, ext, _, hsj⟩ := imgNamesFrom_mem p (imgExts pg) 0 s h2
      exact ⟨p, j, ext, Nat.le_refl p, hsj⟩
    · have h2 : s ∈ imageNames (parsePages (p + 1) rest) := by
        simpa [imageNames, imagesOf] using h
      obtain ⟨q, j, ext, hq, hsj⟩ := ih (p + 1) s h2
      exact ⟨q, j, ext, by omega, hsj⟩

/-- The image names of the whole result are pairwise distinct. -/
theorem parsePages_imageNames_pairwise :
    ∀ (l : List (List PageItem)) (p : Nat),
      (imageNames (parsePages p l)).Pairwise (· ≠ ·) := by
  intro l
  induction l with
  | nil => intro p; simp [parsePages, imageNames, imagesOf]
  | cons pg rest ih =>
    intro p
    have happ : imageNames (parsePages p (pg :: rest)) =
        imageNames (parsePage p pg 0 0) ++ imageNames (parsePages (p + 1) rest) := by
      simp [parsePages, imageNames, imagesOf, List.filter_append]
    rw [happ]
    refine List.pairwise_append.mpr ⟨?_, ih (p + 1), ?_⟩
    · rw [parsePage_imageNames p pg 0 0]
      exact imgNamesFrom_pairwise p (imgExts pg) 0
    · intro x hx y hy
      rw [parsePage_imageNames p pg 0 0] at hx
      obtain ⟨j, ext, _, rfl⟩ := imgNamesFrom_mem p (imgExts pg) 0 x hx
      obtain ⟨q, j2, ext2, hq, rfl⟩ := parsePages_imageNames_mem rest (p + 1) y hy
      intro heq
      have := (imageName_inj p j ext q j2 ext2 heq).1
      omega


/-- A list with a false `all` has a member falsifying the predicate, stated on
`any`. -/
theorem any_not_of_all_false (l : List Char) (p : Char → Bool) (h : l.all p = false) :
    l.any (fun c => !(p c)) = true := by
  induction l with
  | nil => simp at h
  | cons c cs ih =>
    simp only [List.all_cons] at h
    simp only [List.any_cons]
    cases hp : p c with
    | false => simp [hp]
    | true =>
      rw [hp] at h
      simp only [Bool.true_and] at h
      simp [ih h]

/-! ## The claims -/

/-- The sample scenario exactly as the specification states it: page count 9,
exactly one table element, that table on page 1 with table index 0 and a 3×4
grid (under either reading of rows×columns) whose cells are all present
strings and contain the pair `CCCD` / `Căn cước công dân`, and every image
name ending in `.jpeg` or `.png`. -/
def sampleScenarioStated : Prop :=
  sampleOutput.metadata.page_count = 9 ∧
  (tablesOf sampleOutput.raw_elements).length = 1 ∧
  (∀ e ∈ tablesOf sampleOutput.raw_elements,
    pageOf e = 1 ∧ e.metadata.table_index = some 0 ∧
    (((gridOf e).length = 3 ∧ ∀ row ∈ gridOf e, row.length = 4) ∨
     ((gridOf e).length = 4 ∧ ∀ row ∈ gridOf e, row.length = 3)) ∧
    (∀ row ∈ gridOf e, ∀ c ∈ row, c.isSome = true) ∧
    (∃ row ∈ gridOf e, some "CCCD" ∈ row ∧ some "Căn cước công dân" ∈ row)) ∧
  (∀ e ∈ sampleOutput.raw_elements, e.type = "image_ref" →
    (endsIn (contentStr e) ".jpeg" = true ∨ endsIn (contentStr e) ".png" = true))

/-- Claim C1, as stated, fails on the captured sample output: the one table's
grid is not a 3×4 grid of strings (it has 4 rows of 9 cells each, with absent
cells). -/
theorem C1_counterexample : ¬ sampleScenarioStated := by
  unfold sampleScenarioStated
  decide

/-- Claim C1 (amended): for the 9-page sample PDF, `parse_document` returns
`metadata.page_count = 9` and exactly one table element, on page 1 with
`table_index = 0`; the table's content is a 4-row grid of 9 optional cells per
row (some cells absent) with `CCCD` and `Căn cước công dân` in the same row;
and every image element's name ends in `.jpeg` or `.png`. -/
theorem C1_sample_parse :
    sampleOutput.metadata.page_count = 9 ∧
    (tablesOf sampleOutput.raw_elements).length = 1 ∧
    (∀ e ∈ tablesOf sampleOutput.raw_elements,
      pageOf e = 1 ∧ e.metadata.table_index = some 0 ∧
      (gridOf e).length = 4 ∧ (∀ row ∈ gridOf e, row.length = 9) ∧
      (∃ row ∈ gridOf e, some "CCCD" ∈ row ∧ some "Căn cước công dân" ∈ row) ∧
      (∃ row ∈ gridOf e, none ∈ row)) ∧
    (∀ e ∈ sampleOutput.raw_elements, e.type = "image_ref" →
      (endsIn (contentStr e) ".jpeg" = true ∨ endsIn (contentStr e) ".png" = true)) := by
  decide

/-- An image element whose `temp_image_path` key holds an actual path. -/
def holdsPath (e : RawElement) : Bool :=
  match e.metadata.temp_image_path with
  | some (some _) => true
  | _ => false

/-- The presence rule claim C2 states, on the captured sample: an image's
`temp_image_path` key either holds an actual path (the image was materialized)
or is absent from the metadata dict. -/
def tempPathStated : Prop :=
  ∀ e ∈ sampleOutput.raw_elements, e.type = "image_ref" →
    (e.metadata.temp_image_path = none ∨ holdsPath e = true)

/-- Claim C2, as stated, fails on the captured sample output: every image
element was left unmaterialized, yet its metadata still contains the
`temp_image_path` key (mapped to `None`) instead of omitting it. -/
theorem C2_counterexample : ¬ tempPathStated := by
  unfold tempPathStated
  decide

/-- Claim C2 (amended): every image element of a parser result carries the
`temp_image_path` key; the parser does not materialize images, and the key is
then present with value `None` rather than absent. -/
theorem C2_temp_image_path_present (fs : String → FileState) (st : GraphState)
    (r : ParserOutput) (e : RawElement) (hok : parse_document fs st = .ok r)
    (he : e ∈ r.raw_elements) (hty : e.type = "image_ref") :
    e.metadata.temp_image_path = some none := by
  obtain ⟨d, hfs, rfl⟩ := parse_ok_elim hok
  obtain ⟨q, pg, hm, hq, hin⟩ := parsePages_mem d.pages 1 e he
  exact parsePage_image_meta q pg 0 0 e hin hty

/-- Witness for C2 at a concrete parse. -/
theorem C2_witness : (mkImage 1 "Image_1_0.jpeg" 5).metadata.temp_image_path = some none :=
  C2_temp_image_path_present wFS wState wResult (mkImage 1 "Image_1_0.jpeg" 5)
    (by rfl) (by decide) rfl


/-- A document whose first page yields no element: page 1 is empty, page 2
holds one text block. -/
def c3Doc : PDFDoc := ⟨[[], [.textBlock "x" wBB]]⟩

/-- A file system holding only that document. -/
def c3FS : String → FileState := fun p =>
  if p = "c3.pdf" then .pdf c3Doc else .missing

/-- The pipeline state pointing at that document. -/
def c3St : GraphState := ⟨"c3.pdf"⟩

/-- The parser's output on that document: a single element, on page 2. -/
def c3Res : ParserOutput := ⟨[mkText 2 "x" wBB], ⟨"c3.pdf", 2⟩⟩

/-- Claim C3, as stated, fails on a valid PDF whose first page yields no
element: the set of page numbers appearing in the result is then {2}, which is
not contiguous starting at 1. -/
theorem C3_counterexample :
    parse_document c3FS c3St = .ok c3Res ∧ ¬ contigFrom1 (pageList c3Res) := by
  refine ⟨by rfl, ?_⟩
  rintro ⟨k, hk⟩
  have h2 : (2 : Nat) ∈ pageList c3Res := by decide
  obtain ⟨h21, h2k⟩ := (hk 2).mp h2
  have h1 : (1 : Nat) ∈ pageList c3Res := (hk 1).mpr ⟨Nat.le_refl 1, by omega⟩
  exact absurd h1 (by decide)

/-- Claim C3 (amended): a successful `parse_document` reports the document's
true page count and keeps every element's page number within
`[1, page_count]`; the page numbers appearing in the result are contiguous
starting at 1 whenever every page yields at least one element. -/
theorem C3_page_count_and_range (fs : String → FileState) (st : GraphState)
    (d : PDFDoc) (r : ParserOutput) (hfs : fs st.pdf_path = .pdf d)
    (hok : parse_document fs st = .ok r) :
    r.metadata.page_count = d.pages.length ∧
    (∀ e ∈ r.raw_elements, 1 ≤ pageOf e ∧ pageOf e ≤ r.metadata.page_count) ∧
    ((∀ pg ∈ d.pages, pageYields pg = true) → contigFrom1 (pageList r)) := by
  obtain ⟨d2, hfs2, rfl⟩ := parse_ok_elim hok
  rw [hfs] at hfs2
  injection hfs2 with hd
  subst hd
  refine ⟨rfl, ?_, ?_⟩
  · intro e he
    have := parsePages_page_range d.pages 1 e he
    simp only []
    omega
  · intro hy
    refine ⟨d.pages.length, fun q => ⟨?_, ?_⟩⟩
    · intro hq
      simp only [pageList] at hq
      obtain ⟨e, he, rfl⟩ := List.mem_map.mp hq
      have := parsePages_page_range d.pages 1 e he
      omega
    · rintro ⟨h1, h2⟩
      simp only [pageList]
      exact parsePages_mem_page d.pages 1 q h1 (by omega) hy

/-- Witness for C3 at a concrete parse whose pages all yield elements. -/
theorem C3_witness :
    wResult.metadata.page_count = wDoc.pages.length ∧ contigFrom1 (pageList wResult) := by
  have h := C3_page_count_and_range wFS wState wDoc wResult rfl (by rfl)
  exact ⟨h.1, h.2.2 (by decide)⟩

/-- Claim C4: every table element of a parser result has a grid with at least
one row and at least one cell in each row (provided the extraction library
reports only such grids, which is what table detection yields), and on every
page the table indices are contiguous starting at 0. -/
theorem C4_tables (fs : String → FileState) (st : GraphState) (d : PDFDoc)
    (r : ParserOutput) (q : Nat) (hfs : fs st.pdf_path = .pdf d)
    (hok : parse_document fs st = .ok r) (hg : tablesOK d) :
    (∀ e ∈ r.raw_elements, e.type = "table" →
      1 ≤ (gridOf e).length ∧ ∀ row ∈ gridOf e, 1 ≤ row.length) ∧
    tableIdxs (onPage q r.raw_elements) =
      (List.range (tableIdxs (onPage q r.raw_elements)).length).map some := by
  obtain ⟨d2, hfs2, rfl⟩ := parse_ok_elim hok
  rw [hfs] at hfs2
  injection hfs2 with hd
  subst hd
  constructor
  · intro e he hty
    obtain ⟨p2, pg, hm, hp, hin⟩ := parsePages_mem d.pages 1 e he
    obtain ⟨g, bb, hgm, hc⟩ := parsePage_table p2 pg 0 0 e hin hty
    have hok2 := hg pg hm _ hgm
    simp only [tableOKitem, Bool.and_eq_true] at hok2
    obtain ⟨hne, hall⟩ := hok2
    have hg1 : gridOf e = g := by simp [gridOf, hc]
    rw [hg1]
    constructor
    · cases g with
      | nil => simp at hne
      | cons r0 rs => simp
    · intro row hrow
      have := List.all_eq_true.mp hall row hrow
      simp only [Bool.not_eq_true'] at this
      cases row with
      | nil => simp [List.isEmpty] at this
      | cons c cs => simp
  · obtain ⟨n, hn⟩ := parsePages_tableIdxs d.pages 1 q
    simp only []
    rw [hn, ← List.range_eq_range']
    simp

/-- Witness for C4 at a concrete parse with one table. -/
theorem C4_witness :
    (∀ e ∈ wResult.raw_elements, e.type = "table" →
      1 ≤ (gridOf e).length ∧ ∀ row ∈ gridOf e, 1 ≤ row.length) ∧
    tableIdxs (onPage 1 wResult.raw_elements) =
      (List.range (tableIdxs (onPage 1 wResult.raw_elements)).length).map some :=
  C4_tables wFS wState wDoc wResult 1 rfl (by rfl) (by unfold tablesOK; decide)

/-- Claim C5: the elements of a parser result are ordered page-ascending: an
earlier element never lies on a later page. -/
theorem C5_page_ascending (fs : String → FileState) (st : GraphState)
    (r : ParserOutput) (hok : parse_document fs st = .ok r)
    (i j : Fin (pageList r).length) (hij : i < j) :
    (pageList r).get i ≤ (pageList r).get j := by
  obtain ⟨d, hfs, rfl⟩ := parse_ok_elim hok
  exact List.pairwise_iff_get.mp (parsePages_sorted d.pages 1) i j hij

/-- Witness for C5 at a concrete parse. -/
theorem C5_witness :
    (pageList wResult).get ⟨0, by decide⟩ ≤ (pageList wResult).get ⟨1, by decide⟩ :=
  C5_page_ascending wFS wState wResult (by rfl) ⟨0, by decide⟩ ⟨1, by decide⟩ (by decide)

/-- Claim C6: a path that does not resolve to a readable file fails with
`AccessError`, a readable file that is not a well-formed PDF fails with
`CorruptDocument`, and a failed call never also produces a result. -/
theorem C6_error_handling (fs : String → FileState) (st : GraphState) :
    (fs st.pdf_path = .missing → parse_document fs st = .error .AccessError) ∧
    (fs st.pdf_path = .notPdf → parse_document fs st = .error .CorruptDocument) ∧
    (∀ err r, parse_document fs st = .error err → parse_document fs st ≠ .ok r) := by
  refine ⟨?_, ?_, ?_⟩
  · intro h
    unfold parse_document
    rw [h]
  · intro h
    unfold parse_document
    rw [h]
  · intro err r herr hok
    rw [herr] at hok
    cases hok

/-- Witness for C6 at a missing path and at a non-PDF file. -/
theorem C6_witness :
    parse_document wFS ⟨"gone.pdf"⟩ = .error .AccessError ∧
    parse_document wFS ⟨"notes.txt"⟩ = .error .CorruptDocument :=
  ⟨(C6_error_handling wFS ⟨"gone.pdf"⟩).1 (by rfl),
   (C6_error_handling wFS ⟨"notes.txt"⟩).2.1 (by rfl)⟩

/-- Claim C7: within one parser result, the generated file names of the image
elements are pairwise distinct. -/
theorem C7_image_names_distinct (fs : String → FileState) (st : GraphState)
    (r : ParserOutput) (hok : parse_document fs st = .ok r) :
    (imageNames r.raw_elements).Pairwise (· ≠ ·) := by
  obtain ⟨d, hfs, rfl⟩ := parse_ok_elim hok
  exact parsePages_imageNames_pairwise d.pages 1

/-- Witness for C7 at a concrete parse with two images. -/
theorem C7_witness : (imageNames wResult.raw_elements).Pairwise (· ≠ ·) :=
  C7_image_names_distinct wFS wState wResult (by rfl)

/-- Claim C8: every text element of a parser result has content that is
non-empty after trimming whitespace: some character is not whitespace. -/
theorem C8_text_nonblank (fs : String → FileState) (st : GraphState)
    (r : ParserOutput) (e : RawElement) (hok : parse_document fs st = .ok r)
    (he : e ∈ r.raw_elements) (hty : e.type = "text") :
    (contentStr e).data.any (fun c => !(isWS c)) = true := by
  obtain ⟨d, hfs, rfl⟩ := parse_ok_elim hok
  obtain ⟨q, pg, hm, hq, hin⟩ := parsePages_mem d.pages 1 e he
  obtain ⟨s, bb, hs, rfl⟩ := parsePage_text q pg 0 0 e hin hty
  rw [isBlank] at hs
  exact any_not_of_all_false s.data isWS hs

/-- Witness for C8 at a concrete text element. -/
theorem C8_witness : (contentStr (mkText 1 "hello" wBB)).data.any (fun c => !(isWS c)) = true :=
  C8_text_nonblank wFS wState wResult (mkText 1 "hello" wBB) (by rfl) (by decide) rfl

/-- Claim C9: `parse_document` is deterministic: two calls on the same input
agree on the page count and on the count and order of the raw elements. -/
theorem C9_deterministic (fs : String → FileState) (st : GraphState)
    (r1 r2 : ParserOutput) (h1 : parse_document fs st = .ok r1)
    (h2 : parse_document fs st = .ok r2) :
    r1.metadata.page_count = r2.metadata.page_count ∧
    r1.raw_elements.length = r2.raw_elements.length ∧
    r1.raw_elements = r2.raw_elements := by
  rw [h1] at h2
  injection h2 with h3
  rw [h3]
  exact ⟨rfl, rfl, rfl⟩

/-- Witness for C9 at a concrete parse. -/
theorem C9_witness :
    wResult.metadata.page_count = wResult.metadata.page_count ∧
    wResult.raw_elements.length = wResult.raw_elements.length ∧
    wResult.raw_elements = wResult.raw_elements :=
  C9_deterministic wFS wState wResult wResult (by rfl) (by rfl)

/-- Claim C10: `parse_document` takes the pipeline state (a `GraphState` built
from the PDF path) and returns a dict with exactly the keys `raw_elements` and
`metadata` (the record `ParserOutput`), whose metadata dict has exactly the
keys `source` — the caller-supplied path verbatim — and `page_count`; on the
sample run the metadata is `{'source': '../sample_pdfs/part0.pdf',
'page_count': 9}`. -/
theorem C10_interface (fs : String → FileState) (st : GraphState)
    (r : ParserOutput) (hok : parse_document fs st = .ok r) :
    r.metadata.source = st.pdf_path ∧
    sampleOutput.metadata = ⟨"../sample_pdfs/part0.pdf", 9⟩ := by
  obtain ⟨d, hfs, rfl⟩ := parse_ok_elim hok
  exact ⟨rfl, rfl⟩

/-- Witness for C10 at a concrete parse. -/
theorem C10_witness :
    wResult.metadata.source = wState.pdf_path ∧
    sampleOutput.metadata = ⟨"../sample_pdfs/part0.pdf", 9⟩ :=
  C10_interface wFS wState wResult (by rfl)
